import Mathlib

/-!
Shallow embedding of the aibottelegram server (`src/server.js`) and the
client request-type classifier (`src/public/app.js`).

Conventions:
* Epoch-millisecond timestamps are `Nat` (the code stores ISO strings
  produced from epoch milliseconds and compares them by converting back
  with `new Date`, which is a bijective round-trip for valid instants).
* JavaScript `Array.prototype.sort` is stable; it is modelled with
  `List.insertionSort`, which is also stable.
* Cryptographic digests (SHA-256, MD5, HMAC-SHA256) are taken as abstract
  function parameters; all structural code around them is embedded.
* A JS object spread over optional fields is modelled with `Option`
  fields, `none` meaning the key is absent from the update object.
-/

namespace AiBot

/-- A stored session record (`db.sessions` entries in `server.js`). -/
structure Session where
  token : String
  userId : String
  createdAt : Nat
  expiresAt : Nat
  deriving DecidableEq, Repr

/-- A stored user record (`db.users` entries). Users created through
Telegram auth have no `password` key, modelled as `none`. -/
structure User where
  id : String
  username : String
  password : Option String
  deriving DecidableEq, Repr

/-- A chat message; only `role` and `content` matter to the embedded code. -/
structure Msg where
  role : String
  content : String
  deriving DecidableEq, Repr

/-- A stored chat record (`db.chats` entries, created by `POST /api/chats`). -/
structure Chat where
  id : String
  userId : String
  title : String
  messages : List Msg
  model : String
  createdAt : Nat
  updatedAt : Nat
  deriving DecidableEq, Repr

/-- Partial update body for `PUT /api/chats/:chatId`; `none` = key absent. -/
structure ChatUpdates where
  id : Option String := none
  userId : Option String := none
  title : Option String := none
  messages : Option (List Msg) := none
  model : Option String := none
  createdAt : Option Nat := none
  updatedAt : Option Nat := none
  deriving DecidableEq, Repr

/-! ### Sessions: login / telegram-auth retention and expiry
(`server.js` lines 188–215 and the identical block at lines 278–302) -/

/-- The session record pushed by login and Telegram auth:
`expiresAt = Date.now() + 7*24*60*60*1000` (server.js lines 206–211). -/
def mkSession (tok uid : String) (now : Nat) : Session :=
  { token := tok, userId := uid, createdAt := now,
    expiresAt := now + 7 * 24 * 60 * 60 * 1000 }

/-- The sessions of one user, in store order (`db.sessions.filter`). -/
def userSessions (sessions : List Session) (uid : String) : List Session :=
  sessions.filter (fun s => s.userId == uid)

/-- Session cleanup plus push performed by both `POST /api/auth/login`
(server.js lines 196–211) and `POST /api/auth/telegram` (lines 286–302):
if the user already has at least 3 sessions, sort them by `createdAt`
descending (stable, like `Array.prototype.sort`), keep the tokens of the
first two, drop this user's other sessions, then push the new session. -/
def addSessionWithCleanup (sessions : List Session) (uid tok : String)
    (now : Nat) : List Session :=
  (if 3 ≤ (userSessions sessions uid).length then
    sessions.filter (fun s =>
      s.userId != uid ||
        (((List.insertionSort (fun a b => b.createdAt ≤ a.createdAt)
              (userSessions sessions uid)).take 2).map
            (fun s' => s'.token)).contains s.token)
  else sessions) ++ [mkSession tok uid now]

/-- Outcome of `POST /api/auth/verify-session`. -/
inductive VerifyOutcome where
  | invalid
  | expired
  | userNotFound
  | valid (u : User)
  deriving DecidableEq, Repr

/-- `POST /api/auth/verify-session` (server.js lines 322–368): find the
session by token; a missing `db.sessions` key behaves like the empty
list; `new Date(session.expiresAt) < new Date()` is a strict comparison
of epoch instants. -/
def verifySession (users : List User) (sessions : List Session)
    (tok : String) (now : Nat) : VerifyOutcome :=
  match sessions.find? (fun s => s.token == tok) with
  | none => .invalid
  | some s =>
    if s.expiresAt < now then .expired
    else
      match users.find? (fun u => u.id == s.userId) with
      | none => .userNotFound
      | some u => .valid u

/-! ### Login credential check (`POST /api/auth/login`, lines 170–186) -/

/-- `db.users.find(u => u.username === username && u.password ===
hashPassword(password))`; `hash` abstracts SHA-256-hex
(`hashPassword`, lines 78–80). A user without a `password` key compares
`undefined === <hex string>`, i.e. never matches. -/
def findLoginUser (users : List User) (username pw : String)
    (hash : String → String) : Option User :=
  users.find? (fun u => u.username == username && u.password == some (hash pw))

/-- HTTP status of `POST /api/auth/login` up to the credential check:
400 when a field is falsy (empty), 401 when no user matches, 200 otherwise. -/
def loginStatus (users : List User) (username pw : String)
    (hash : String → String) : Nat :=
  if username == "" || pw == "" then 400
  else
    match findLoginUser users username pw hash with
    | none => 401
    | some _ => 200

/-! ### Chats (`POST/PUT/DELETE /api/chats`, lines 387–479) -/

/-- JS `a || b` for strings: the default wins when the value is absent
or the empty string. -/
def jsOrElse (o : Option String) (d : String) : String :=
  match o with
  | none => d
  | some s => if s == "" then d else s

/-- `POST /api/chats` (lines 396–405): id is `'chat_' + Date.now()`,
`model: model || 'gpt-5'`, `createdAt`/`updatedAt` both now. -/
def createChat (uid title : String) (model : Option String) (now : Nat) :
    Chat :=
  { id := "chat_" ++ toString now, userId := uid, title := title,
    messages := [], model := jsOrElse model "gpt-5",
    createdAt := now, updatedAt := now }

/-- `{...chat, ...updates, updatedAt: new Date().toISOString()}`
(lines 441–445): provided keys override, then `updatedAt` is set to now. -/
def applyUpdates (c : Chat) (u : ChatUpdates) (now : Nat) : Chat :=
  { id := u.id.getD c.id, userId := u.userId.getD c.userId,
    title := u.title.getD c.title, messages := u.messages.getD c.messages,
    model := u.model.getD c.model, createdAt := u.createdAt.getD c.createdAt,
    updatedAt := now }

/-- `PUT /api/chats/:chatId` (lines 418–453): `findIndex` + in-place
replacement of the first record whose id matches; `none` is the 404 path. -/
def updateChat (chats : List Chat) (cid : String) (u : ChatUpdates)
    (now : Nat) : Option (List Chat) :=
  match chats with
  | [] => none
  | c :: rest =>
    if c.id == cid then some (applyUpdates c u now :: rest)
    else (updateChat rest cid u now).map (fun l => c :: l)

/-- `DELETE /api/chats/:chatId` (lines 461–474): `findIndex` + `splice`
of the first record whose id matches; `none` is the 404 path. -/
def deleteChat (chats : List Chat) (cid : String) : Option (List Chat) :=
  match chats with
  | [] => none
  | c :: rest =>
    if c.id == cid then some rest
    else (deleteChat rest cid).map (fun l => c :: l)

/-- `GET /api/chats/:userId` (lines 373–379): filter by `userId`. -/
def getUserChats (chats : List Chat) (uid : String) : List Chat :=
  chats.filter (fun c => c.userId == uid)

/-- Persisted store (shape of `db.json` as the routes use it); a missing
`sessions` key is `none`. -/
structure DB where
  users : List User
  chats : List Chat
  sessions : Option (List Session)
  deriving DecidableEq, Repr

/-- The full `DELETE /api/chats/:chatId` route: on a miss it returns 404
before any `writeDB`, so the store value is returned unchanged. -/
def deleteChatRoute (db : DB) (cid : String) : Nat × DB :=
  match deleteChat db.chats cid with
  | none => (404, db)
  | some chats' => (200, { db with chats := chats' })

/-! ### Default store document (`ensureDBExists` lines 30–47, `readDB`
lines 49–71) -/

/-- A small JSON value type, enough for the default document literal. -/
inductive JVal where
  | arr (xs : List JVal)
  | obj (fields : List (String × JVal))
  | str (s : String)

/-- The `defaultDB` literal written by both `ensureDBExists` (file
missing) and `readDB` (parse failure): it has top-level keys `users`,
`chats`, `apiKeys` — and no `sessions` key. -/
def defaultDBJson : JVal :=
  .obj [("users", .arr []), ("chats", .arr []),
        ("apiKeys", .obj [("huggingface", .str ""), ("replicate", .str "")])]

/-- Top-level keys of a JSON document. -/
def topKeys : JVal → List String
  | .obj fields => fields.map (fun f => f.1)
  | _ => []

/-- `readDB`: `none` stands for a missing or unparsable store file, in
which case the default document is written and returned; otherwise the
parsed document is returned as is. -/
def loadDB (parsed : Option JVal) : JVal :=
  match parsed with
  | none => defaultDBJson
  | some j => j

/-! ### Telegram WebApp verification (`verifyTelegramWebAppData`
lines 96–127, used by `POST /api/auth/telegram` lines 240–244) -/

/-- `URLSearchParams.get`: first value for the key. -/
def getParam (params : List (String × String)) (k : String) :
    Option String :=
  (params.find? (fun p => p.1 == k)).map (fun p => p.2)

/-- `URLSearchParams.delete`: drop every entry with the key. -/
def removeParam (params : List (String × String)) (k : String) :
    List (String × String) :=
  params.filter (fun p => p.1 != k)

/-- `entries().sort(([a],[b]) => a.localeCompare(b))`, modelled as a
stable sort by key under the lexicographic order. -/
def sortParams (params : List (String × String)) :
    List (String × String) :=
  List.insertionSort (fun a b => a.1 ≤ b.1) params

/-- The newline-joined `key=value` string the HMAC is computed over. -/
def dataCheckString (params : List (String × String)) : String :=
  String.intercalate "\n"
    ((sortParams (removeParam params "hash")).map (fun p => p.1 ++ "=" ++ p.2))

/-- `verifyTelegramWebAppData(initData, botToken)`: `hmacRaw k m` and
`hmacHex k m` abstract HMAC-SHA256 with raw-byte and hex output;
the secret key is `HMAC-SHA256("WebAppData", botToken)`. Returns false
when no `hash` parameter is supplied. -/
def verifyTelegramWebAppData (hmacRaw hmacHex : String → String → String)
    (params : List (String × String)) (botToken : String) : Bool :=
  match getParam params "hash" with
  | none => false
  | some h =>
    hmacHex (hmacRaw "WebAppData" botToken) (dataCheckString params) == h

/-- The verification gate of `POST /api/auth/telegram`
(`if (BOT_TOKEN && !verifyTelegramWebAppData(initData, BOT_TOKEN))
return 401`): `true` means the request is **not** rejected with 401.
An unset env var is `none`; the empty string is falsy in JS, so it also
skips verification. -/
def telegramGate (hmacRaw hmacHex : String → String → String)
    (botToken : Option String) (params : List (String × String)) : Bool :=
  match botToken with
  | none => true
  | some tok =>
    if tok == "" then true
    else verifyTelegramWebAppData hmacRaw hmacHex params tok

/-! ### String helpers shared by the generation routes and the client -/

/-- `String.prototype.includes` on character lists. -/
def containsSub (needle : List Char) : List Char → Bool
  | [] => needle.isEmpty
  | c :: rest => needle.isPrefixOf (c :: rest) || containsSub needle rest

/-- `String.prototype.includes`. -/
def containsSubstr (needle hay : String) : Bool :=
  containsSub needle.data hay.data

/-- `String.prototype.toLowerCase` restricted to the alphabets the
embedded keyword lists use: ASCII `A–Z` and Cyrillic `А–Я`/`Ё`. -/
def jsLowerChar (c : Char) : Char :=
  if 'A' ≤ c ∧ c ≤ 'Z' then Char.ofNat (c.toNat + 32)
  else if 'А' ≤ c ∧ c ≤ 'Я' then Char.ofNat (c.toNat + 32)
  else if c = 'Ё' then 'ё'
  else c

/-- Lower-casing of a whole string. -/
def jsToLower (s : String) : String :=
  ⟨s.data.map jsLowerChar⟩

/-! ### Image-generation context stitching
(`POST /api/generate/image`, server.js lines 576–600) -/

/-- The generation-trigger test on one stored message:
`m.content && (m.content.includes('сгенерир') ||
m.content.includes('нарисуй') || m.content.includes('создай'))`. -/
def isGenTrigger (content : String) : Bool :=
  content != "" &&
    (containsSubstr "сгенерир" content || containsSubstr "нарисуй" content ||
      containsSubstr "создай" content)

/-- The modification-keyword regex
`/оставь|убери|добавь|измени|сделай|только|без/` applied to
`prompt.toLowerCase()`: a plain alternation of literals, i.e. substring
containment of any of them. -/
def isModification (prompt : String) : Bool :=
  ["оставь", "убери", "добавь", "измени", "сделай", "только", "без"].any
    (fun k => containsSubstr k (jsToLower prompt))

/-- `Array.prototype.slice(-10)`: the last (up to) 10 elements. -/
def lastTen (l : List Msg) : List Msg :=
  l.drop (l.length - 10)

/-- The effective prompt of `POST /api/generate/image` once the chat has
been found (lines 581–600): scan the last 10 messages, most recent
first, for a generation trigger; if the new prompt is a modification
request, prepend that message's text and a comma. -/
def computeContextualPrompt (prompt : String) (messages : List Msg) :
    String :=
  if 0 < messages.length then
    match (lastTen messages).reverse.find? (fun m => isGenTrigger m.content) with
    | some m =>
      if isModification prompt then m.content ++ ", " ++ prompt else prompt
    | none => prompt
  else prompt

/-! ### Client request-type classifier
(`ChatApp.detectRequestType`, `src/public/app.js` lines 755–791).
The image patterns are real JS regexes; `\b`, `\s` and `\w` have their
JS semantics: `\w = [A-Za-z0-9_]` (ASCII only, Cyrillic letters are
*not* word characters), `\b` holds where exactly one neighbour is a
word character, `\s` matches whitespace. -/

/-- JS regex `\w`. -/
def isWordChar (c : Char) : Bool :=
  ('a' ≤ c && c ≤ 'z') || ('A' ≤ c && c ≤ 'Z') ||
    ('0' ≤ c && c ≤ '9') || c == '_'

/-- JS regex `\s` (the ASCII part, enough for these inputs). -/
def isSpaceChar (c : Char) : Bool :=
  c == ' ' || c == '\t' || c == '\n' || c == '\r' ||
    c == '\x0b' || c == '\x0c'

/-- Whether the character left of the current position is a word char. -/
def optIsWord : Option Char → Bool
  | none => false
  | some c => isWordChar c

/-- Whether the character at the current position is a word char. -/
def headIsWord : List Char → Bool
  | [] => false
  | c :: _ => isWordChar c

/-- JS regex `\b` at the position between `prev` and the head of `s`. -/
def boundary (prev : Option Char) (s : List Char) : Bool :=
  optIsWord prev != headIsWord s

/-- Match a literal as a prefix, returning the remaining input. -/
def dropLit (lit : List Char) (s : List Char) : Option (List Char) :=
  match lit, s with
  | [], rest => some rest
  | _ :: _, [] => none
  | x :: xs, y :: ys => if x == y then dropLit xs ys else none

/-- Regex fragment `\s+(n₁|n₂|…)`: one or more whitespace characters,
then one of the nouns (with backtracking over the run of spaces). -/
def afterSpaceNoun (nouns : List (List Char)) : List Char → Bool
  | [] => false
  | c :: rest =>
    isSpaceChar c &&
      (nouns.any (fun n => (dropLit n rest).isSome) ||
        afterSpaceNoun nouns rest)

/-- Regex `\b(v₁|v₂|…)\s+(n₁|n₂|…)` anchored at the current position. -/
def matchVerbSpaceNoun (verbs nouns : List (List Char))
    (prev : Option Char) (s : List Char) : Bool :=
  boundary prev s &&
    verbs.any (fun v =>
      match dropLit v s with
      | some rest => afterSpaceNoun nouns rest
      | none => false)

/-- Regex `\b(w₁|w₂|…)\b` anchored at the current position. -/
def matchAltBoundary (alts : List (List Char)) (prev : Option Char)
    (s : List Char) : Bool :=
  boundary prev s &&
    alts.any (fun v =>
      match dropLit v s with
      | some rest => boundary v.getLast? rest
      | none => false)

/-- Unanchored regex test: try the anchored matcher at every position. -/
def scanAux (m : Option Char → List Char → Bool) :
    Option Char → List Char → Bool
  | prev, [] => m prev []
  | prev, c :: rest => m prev (c :: rest) || scanAux m (some c) rest

/-- `RegExp.prototype.test` for the anchored matcher `m`. -/
def regexTest (m : Option Char → List Char → Bool) (s : String) : Bool :=
  scanAux m none s.data

/-- `videoKeywords` of `detectRequestType` (checked with `includes`). -/
def videoKeywords : List String :=
  ["сгенерируй видео", "создай видео", "сделай видео",
   "generate video", "create video", "make video"]

/-- Verbs of image pattern 1 (Russian verb + explicit image noun). -/
def ruVerbs : List (List Char) :=
  ["сгенерируй", "сгенерируйте", "нарисуй", "нарисуйте", "создай",
   "создайте", "сделай", "сделайте"].map String.data

/-- Nouns of image pattern 1. -/
def ruNouns : List (List Char) :=
  ["картинку", "изображение", "рисунок", "фото", "арт"].map String.data

/-- Alternatives of image pattern 2 (`/\b(нарисуй|нарисуйте|draw)\b/i`):
a standalone draw-verb, no image noun required. -/
def drawWords : List (List Char) :=
  ["нарисуй", "нарисуйте", "draw"].map String.data

/-- Verbs of image pattern 3 (English verb + explicit image noun). -/
def enVerbs : List (List Char) :=
  ["generate", "create", "make", "draw"].map String.data

/-- Nouns of image pattern 3. -/
def enNouns : List (List Char) :=
  ["image", "picture", "photo", "art", "illustration"].map String.data

/-- Alternatives of image pattern 4 (`/\b(картинку|изображение)\b/i`). -/
def standaloneNouns : List (List Char) :=
  ["картинку", "изображение"].map String.data

/-- Image pattern 1: `/\b(сгенерируй|…|сделайте)\s+(картинку|…|арт)/i`. -/
def imagePattern1 (s : String) : Bool :=
  regexTest (matchVerbSpaceNoun ruVerbs ruNouns) s

/-- Image pattern 2: `/\b(нарисуй|нарисуйте|draw)\b/i`. -/
def imagePattern2 (s : String) : Bool :=
  regexTest (matchAltBoundary drawWords) s

/-- Image pattern 3: `/\b(generate|create|make|draw)\s+(image|…)/i`. -/
def imagePattern3 (s : String) : Bool :=
  regexTest (matchVerbSpaceNoun enVerbs enNouns) s

/-- Image pattern 4: `/\b(картинку|изображение)\b/i`. -/
def imagePattern4 (s : String) : Bool :=
  regexTest (matchAltBoundary standaloneNouns) s

/-- `ChatApp.detectRequestType(message)`: video keywords first (substring
check), then the four image patterns in order, else `'text'`. -/
def detectRequestType (message : String) : String :=
  let lower := jsToLower message
  if videoKeywords.any (fun k => containsSubstr k lower) then "video"
  else if imagePattern1 lower || imagePattern2 lower ||
      imagePattern3 lower || imagePattern4 lower then "image"
  else "text"

/-- The explicit image nouns appearing in the spec and the image
patterns; used to state what an `'image'` classification guarantees. -/
def imageNounList : List String :=
  ["картинку", "изображение", "рисунок", "фото", "арт",
   "image", "picture", "photo", "art", "illustration", "drawing"]

/-! ## Helper lemmas -/

/-- `deleteChat` misses exactly when no record has the id. -/
theorem deleteChat_eq_none_of (chats : List Chat) (cid : String)
    (h : ∀ c ∈ chats, c.id ≠ cid) : deleteChat chats cid = none := by
  induction chats with
  | nil => rfl
  | cons c rest ih =>
    unfold deleteChat
    rw [if_neg (fun hb => h c (List.mem_cons_self c rest) (beq_iff_eq.mp hb)),
      ih (fun c' hc' => h c' (List.mem_cons_of_mem _ hc'))]
    rfl

/-- `updateChat` misses exactly when no record has the id. -/
theorem updateChat_eq_none_of (chats : List Chat) (cid : String)
    (u : ChatUpdates) (now : Nat) (h : ∀ c ∈ chats, c.id ≠ cid) :
    updateChat chats cid u now = none := by
  induction chats with
  | nil => rfl
  | cons c rest ih =>
    unfold updateChat
    rw [if_neg (fun hb => h c (List.mem_cons_self c rest) (beq_iff_eq.mp hb)),
      ih (fun c' hc' => h c' (List.mem_cons_of_mem _ hc'))]
    rfl

/-! ## Claim theorems -/

/-- C1: whenever the most recent of the last 10 chat messages matching a
generation trigger is `m` and the new prompt matches the
modification-keyword regex, the effective prompt is `m`'s text, a comma
and a space, then the new prompt; in particular a prior message
"нарисуй кота" with new prompt "добавь шляпу" yields
"нарисуй кота, добавь шляпу". -/
theorem image_context_stitching :
    (∀ (prompt : String) (messages : List Msg) (m : Msg),
      (lastTen messages).reverse.find? (fun m' => isGenTrigger m'.content) =
        some m →
      isModification prompt = true →
      0 < messages.length →
      computeContextualPrompt prompt messages =
        m.content ++ ", " ++ prompt) ∧
    computeContextualPrompt "добавь шляпу" [⟨"user", "нарисуй кота"⟩] =
      "нарисуй кота, добавь шляпу" := by
  constructor
  · intro prompt messages m hfind hmod hlen
    unfold computeContextualPrompt
    rw [if_pos hlen, hfind]
    dsimp only
    rw [if_pos hmod]
  · decide

/-- C1 witness: the general conjunct applied to the concrete chat. -/
theorem image_context_stitching_witness :
    computeContextualPrompt "добавь шляпу" [⟨"user", "нарисуй кота"⟩] =
      "нарисуй кота" ++ ", " ++ "добавь шляпу" :=
  image_context_stitching.1 "добавь шляпу" [⟨"user", "нарисуй кота"⟩]
    ⟨"user", "нарисуй кота"⟩ (by decide) (by decide) (by decide)

/-- C2 counterexample: the recreated default store document does **not**
have top-level keys `users`, `chats`, `sessions`, `apiKeys`: it has no
`sessions` key at all. -/
theorem default_db_keys_counterexample :
    topKeys (loadDB none) ≠ ["users", "chats", "sessions", "apiKeys"] ∧
    "sessions" ∉ topKeys (loadDB none) := by
  constructor
  · decide
  · decide

/-- C2 (amended): when the store file is missing or unparsable, the
store is recreated as the default document, whose top-level keys are
exactly `users`, `chats`, `apiKeys` (no `sessions` key; that key only
appears after the first login initialises it). -/
theorem default_db_shape :
    loadDB none = defaultDBJson ∧
    topKeys (loadDB none) = ["users", "chats", "apiKeys"] ∧
    (∀ j, loadDB (some j) = j) := by
  exact ⟨rfl, by decide, fun _ => rfl⟩

/-- C4: sessions issued by login and Telegram auth expire exactly
604800000 ms (7 days) after issuance: the session appended by the shared
cleanup-and-push block is `mkSession`, whose `expiresAt` is
`now + 604800000`; verifying one millisecond after that instant fails
with expired, while verifying at or before it never yields expired. -/
theorem session_expiry :
    (∀ tok uid now, (mkSession tok uid now).expiresAt = now + 604800000) ∧
    (∀ sessions uid tok now,
      (addSessionWithCleanup sessions uid tok now).getLast? =
        some (mkSession tok uid now)) ∧
    (∀ (users : List User) (sessions : List Session) (tok : String)
        (s : Session),
      sessions.find? (fun s' => s'.token == tok) = some s →
      (verifySession users sessions tok (s.expiresAt + 1) =
          VerifyOutcome.expired ∧
        ∀ now, now ≤ s.expiresAt →
          verifySession users sessions tok now ≠ VerifyOutcome.expired)) := by
  refine ⟨fun tok uid now => rfl, ?_, ?_⟩
  · intro sessions uid tok now
    simp [addSessionWithCleanup]
  · intro users sessions tok s hfind
    constructor
    · unfold verifySession
      rw [hfind]
      dsimp only
      rw [if_pos (Nat.lt_succ_self _)]
    · intro now hle
      unfold verifySession
      rw [hfind]
      dsimp only
      rw [if_neg (Nat.not_lt.mpr hle)]
      cases h : users.find? (fun u => u.id == s.userId) <;> simp [h]

/-- C4 witness: a concrete session expiring at 604800000. -/
theorem session_expiry_witness :
    verifySession [] [mkSession "a" "u" 0] "a" 604800001 =
        VerifyOutcome.expired ∧
      verifySession [] [mkSession "a" "u" 0] "a" 604800000 ≠
        VerifyOutcome.expired := by
  have h := session_expiry.2.2 [] [mkSession "a" "u" 0] "a"
    (mkSession "a" "u" 0) (by decide)
  exact ⟨h.1, h.2 604800000 (by decide)⟩

/-- C6: deleting a chat id no stored chat has returns 404 and the store
is returned unchanged (the route answers before any write). -/
theorem delete_missing_chat (db : DB) (cid : String)
    (h : ∀ c ∈ db.chats, c.id ≠ cid) :
    deleteChatRoute db cid = (404, db) := by
  unfold deleteChatRoute
  rw [deleteChat_eq_none_of _ _ h]

/-- C6 witness: a concrete store with one chat and a missing id. -/
theorem delete_missing_chat_witness :
    deleteChatRoute ⟨[], [createChat "u" "t" none 5], none⟩ "chat_7" =
      (404, ⟨[], [createChat "u" "t" none 5], none⟩) :=
  delete_missing_chat ⟨[], [createChat "u" "t" none 5], none⟩ "chat_7"
    (by decide)

/-- C7: with a (nonempty) bot token configured, a payload whose supplied
`hash` differs from the recomputed HMAC over the sorted, hash-excluded,
newline-joined parameter string (keyed by HMAC-SHA256("WebAppData",
token)) is rejected; with no token configured, the gate never rejects. -/
theorem telegram_hash_gate :
    (∀ (hmacRaw hmacHex : String → String → String) (tok : String)
        (params : List (String × String)) (h : String),
      tok ≠ "" →
      getParam params "hash" = some h →
      hmacHex (hmacRaw "WebAppData" tok) (dataCheckString params) ≠ h →
      telegramGate hmacRaw hmacHex (some tok) params = false) ∧
    (∀ (hmacRaw hmacHex : String → String → String)
        (params : List (String × String)),
      telegramGate hmacRaw hmacHex none params = true) := by
  constructor
  · intro hmacRaw hmacHex tok params h htok hget hne
    unfold telegramGate
    dsimp only
    rw [if_neg (fun hb => htok (beq_iff_eq.mp hb))]
    unfold verifyTelegramWebAppData
    rw [hget]
    dsimp only
    exact beq_eq_false_iff_ne.mpr hne
  · intro hmacRaw hmacHex params
    rfl

/-- C7 witness: a concrete mismatching hash is rejected; with no token
the same payload passes. -/
theorem telegram_hash_gate_witness :
    telegramGate (fun _ _ => "k") (fun _ _ => "x") (some "tok")
        [("hash", "y")] = false ∧
      telegramGate (fun _ _ => "k") (fun _ _ => "x") none
        [("hash", "y")] = true :=
  ⟨telegram_hash_gate.1 (fun _ _ => "k") (fun _ _ => "x") "tok"
      [("hash", "y")] "y" (by decide) rfl (by decide),
    telegram_hash_gate.2 (fun _ _ => "k") (fun _ _ => "x") [("hash", "y")]⟩

/-- C8: when no stored user has the given username together with a
stored password equal to the hash of the given password, login answers
401; a user without a password key (Telegram-created) never matches the
credential test. -/
theorem login_wrong_password :
    (∀ (users : List User) (username pw : String)
        (hash : String → String),
      username ≠ "" → pw ≠ "" →
      (∀ u ∈ users, ¬(u.username = username ∧ u.password = some (hash pw))) →
      loginStatus users username pw hash = 401) ∧
    (∀ (u : User) (username pw : String) (hash : String → String),
      u.password = none →
      (u.username == username && u.password == some (hash pw)) = false) := by
  constructor
  · intro users username pw hash hun hpw hnone
    unfold loginStatus
    rw [if_neg]
    · rw [findLoginUser, List.find?_eq_none.mpr]
      intro u hu
      have := hnone u hu
      simp only [Bool.and_eq_true, beq_iff_eq]
      exact fun hc => this ⟨hc.1, hc.2⟩
    · simp only [Bool.or_eq_true, beq_iff_eq]
      rintro (h | h)
      · exact hun h
      · exact hpw h
  · intro u username pw hash hp
    rw [hp]
    simp

/-- C8 witness: a store holding one Telegram user (no password) rejects
a password login with 401. -/
theorem login_wrong_password_witness :
    loginStatus [⟨"tg_1", "alice", none⟩] "alice" "pw"
        (fun _ => "deadbeef") = 401 ∧
      ((⟨"tg_1", "alice", none⟩ : User).username == "alice" &&
        (⟨"tg_1", "alice", none⟩ : User).password ==
          some ((fun _ => "deadbeef") "pw")) = false :=
  ⟨login_wrong_password.1 [⟨"tg_1", "alice", none⟩] "alice" "pw"
      (fun _ => "deadbeef") (by decide) (by decide) (by decide),
    login_wrong_password.2 ⟨"tg_1", "alice", none⟩ "alice" "pw"
      (fun _ => "deadbeef") rfl⟩

/-- C10: chat ids depend only on the creation millisecond, so two
creations in the same millisecond collide; update and delete then act
only on the first matching record. -/
theorem chat_id_collision :
    (∀ (t : Nat) (uid₁ title₁ uid₂ title₂ : String)
        (m₁ m₂ : Option String),
      (createChat uid₁ title₁ m₁ t).id = (createChat uid₂ title₂ m₂ t).id) ∧
    (∀ (c₁ c₂ : Chat) (rest : List Chat) (u : ChatUpdates) (now : Nat),
      c₁.id = c₂.id →
      updateChat (c₁ :: c₂ :: rest) c₂.id u now =
          some (applyUpdates c₁ u now :: c₂ :: rest) ∧
        deleteChat (c₁ :: c₂ :: rest) c₂.id = some (c₂ :: rest)) := by
  constructor
  · intro t uid₁ title₁ uid₂ title₂ m₁ m₂
    rfl
  · intro c₁ c₂ rest u now hid
    constructor
    · unfold updateChat
      rw [if_pos (beq_iff_eq.mpr hid)]
    · unfold deleteChat
      rw [if_pos (beq_iff_eq.mpr hid)]

/-- C10 witness: two same-millisecond creations collide and the update
touches only the first copy. -/
theorem chat_id_collision_witness :
    (createChat "u1" "a" none 42).id = (createChat "u2" "b" none 42).id ∧
      deleteChat [createChat "u1" "a" none 42, createChat "u2" "b" none 42]
          (createChat "u2" "b" none 42).id =
        some [createChat "u2" "b" none 42] :=
  ⟨chat_id_collision.1 42 "u1" "a" "u2" "b" none none,
    (chat_id_collision.2 (createChat "u1" "a" none 42)
        (createChat "u2" "b" none 42) [] {} 0 rfl).2⟩

/-- C5: updating a chat shallow-merges the provided fields over the
first stored record with that id and always sets `updatedAt` to the
update instant (absent fields are preserved, present ones replaced);
updating a chat created at `t₁` with `{messages := [m₁, m₂]}` at a later
instant `t₂` yields a record that re-fetch returns, whose messages are
exactly `[m₁, m₂]` and whose `updatedAt` exceeds its `createdAt`;
updating a nonexistent id yields the 404 path. -/
theorem chat_update_merge :
    (∀ (chats : List Chat) (cid : String) (u : ChatUpdates) (now : Nat),
      (∀ c ∈ chats, c.id ≠ cid) → updateChat chats cid u now = none) ∧
    (∀ (pre : List Chat) (c : Chat) (post : List Chat) (u : ChatUpdates)
        (now : Nat),
      (∀ c' ∈ pre, c'.id ≠ c.id) →
      updateChat (pre ++ c :: post) c.id u now =
        some (pre ++ applyUpdates c u now :: post)) ∧
    (∀ (c : Chat) (u : ChatUpdates) (now : Nat),
      (applyUpdates c u now).updatedAt = now ∧
      (u.messages = none → (applyUpdates c u now).messages = c.messages) ∧
      (∀ ms, u.messages = some ms → (applyUpdates c u now).messages = ms)) ∧
    (∀ (uid title : String) (mo : Option String) (t₁ t₂ : Nat)
        (m₁ m₂ : Msg), t₁ < t₂ →
      updateChat [createChat uid title mo t₁] (createChat uid title mo t₁).id
          { messages := some [m₁, m₂] } t₂ =
        some [applyUpdates (createChat uid title mo t₁)
            { messages := some [m₁, m₂] } t₂] ∧
      (applyUpdates (createChat uid title mo t₁)
          { messages := some [m₁, m₂] } t₂).messages = [m₁, m₂] ∧
      getUserChats [applyUpdates (createChat uid title mo t₁)
          { messages := some [m₁, m₂] } t₂] uid =
        [applyUpdates (createChat uid title mo t₁)
            { messages := some [m₁, m₂] } t₂] ∧
      (applyUpdates (createChat uid title mo t₁)
          { messages := some [m₁, m₂] } t₂).createdAt <
        (applyUpdates (createChat uid title mo t₁)
            { messages := some [m₁, m₂] } t₂).updatedAt) := by
  refine ⟨fun chats cid u now h => updateChat_eq_none_of chats cid u now h,
    ?_, ?_, ?_⟩
  · intro pre c post u now hpre
    induction pre with
    | nil =>
      simp only [List.nil_append]
      unfold updateChat
      rw [if_pos (beq_iff_eq.mpr rfl)]
    | cons p pre' ih =>
      simp only [List.cons_append]
      unfold updateChat
      rw [if_neg (fun hb =>
          hpre p (List.mem_cons_self p pre') (beq_iff_eq.mp hb)),
        ih (fun c' hc' => hpre c' (List.mem_cons_of_mem _ hc'))]
      rfl
  · intro c u now
    refine ⟨rfl, fun h => ?_, fun ms h => ?_⟩
    · simp [applyUpdates, h]
    · simp [applyUpdates, h]
  · intro uid title mo t₁ t₂ m₁ m₂ ht
    refine ⟨?_, rfl, ?_, ?_⟩
    · unfold updateChat
      rw [if_pos (beq_iff_eq.mpr rfl)]
    · simp [getUserChats, applyUpdates, createChat]
    · simpa [applyUpdates, createChat] using ht

/-- C5 witness: a concrete create-update-refetch round trip. -/
theorem chat_update_merge_witness :
    updateChat [createChat "u" "t" none 1] (createChat "u" "t" none 1).id
        { messages := some [⟨"user", "hi"⟩, ⟨"assistant", "yo"⟩] } 2 =
      some [applyUpdates (createChat "u" "t" none 1)
          { messages := some [⟨"user", "hi"⟩, ⟨"assistant", "yo"⟩] } 2] ∧
    (applyUpdates (createChat "u" "t" none 1)
        { messages := some [⟨"user", "hi"⟩, ⟨"assistant", "yo"⟩] } 2).messages =
      [⟨"user", "hi"⟩, ⟨"assistant", "yo"⟩] ∧
    (applyUpdates (createChat "u" "t" none 1)
        { messages := some [⟨"user", "hi"⟩, ⟨"assistant", "yo"⟩] } 2).createdAt <
      (applyUpdates (createChat "u" "t" none 1)
          { messages := some [⟨"user", "hi"⟩, ⟨"assistant", "yo"⟩] } 2).updatedAt := by
  have h := chat_update_merge.2.2.2 "u" "t" none 1 2
    ⟨"user", "hi"⟩ ⟨"assistant", "yo"⟩ (by decide)
  exact ⟨h.1, h.2.1, h.2.2.2⟩

/-- C3: after any successful login the user has at most 3 sessions
(assuming the user's stored session tokens are distinct, which the
token format guarantees); and 4 successive logins at increasing
instants, starting with no sessions for that user, leave exactly the 3
sessions created by logins 2, 3 and 4 — the 3 most recent. -/
theorem session_retention :
    (∀ (sessions : List Session) (uid tok : String) (now : Nat),
      ((userSessions sessions uid).map (fun s => s.token)).Nodup →
      (userSessions (addSessionWithCleanup sessions uid tok now) uid).length
        ≤ 3) ∧
    (∀ (uid k₁ k₂ k₃ k₄ : String) (t₁ t₂ t₃ t₄ : Nat),
      t₁ < t₂ → t₂ < t₃ → t₃ < t₄ → k₁ ≠ k₂ → k₁ ≠ k₃ →
      addSessionWithCleanup (addSessionWithCleanup (addSessionWithCleanup
          (addSessionWithCleanup [] uid k₁ t₁) uid k₂ t₂) uid k₃ t₃)
          uid k₄ t₄ =
        [mkSession k₂ uid t₂, mkSession k₃ uid t₃, mkSession k₄ uid t₄]) := by
  constructor
  · intro sessions uid tok now hnd
    unfold addSessionWithCleanup
    by_cases h3 : 3 ≤ (userSessions sessions uid).length
    · rw [if_pos h3]
      set keep := ((List.insertionSort (fun a b => b.createdAt ≤ a.createdAt)
        (userSessions sessions uid)).take 2).map
          (fun s' => s'.token) with hkeep
      have hkeeplen : keep.length ≤ 2 := by
        rw [hkeep, List.length_map, List.length_take]
        exact min_le_left _ _
      unfold userSessions
      rw [List.filter_append, List.length_append]
      have hinner :
          ((sessions.filter (fun s =>
              s.userId != uid || keep.contains s.token)).filter
            (fun s => s.userId == uid)) =
          (userSessions sessions uid).filter
            (fun s => keep.contains s.token) := by
        unfold userSessions
        rw [List.filter_filter, List.filter_filter]
        congr 1
        funext s
        by_cases hu : s.userId = uid
        · have hb : (s.userId == uid) = true := beq_iff_eq.mpr hu
          simp [hb, bne, Bool.and_comm]
        · have hb : (s.userId == uid) = false := beq_eq_false_iff_ne.mpr hu
          simp [hb, bne]
      rw [hinner]
      have hsub : ((userSessions sessions uid).filter
          (fun s => keep.contains s.token)).map (fun s => s.token) ⊆ keep := by
        intro x hx
        rcases List.mem_map.mp hx with ⟨s, hs, hxs⟩
        rcases List.mem_filter.mp hs with ⟨_, hks⟩
        subst hxs
        simpa using hks
      have hsl : List.Sublist ((userSessions sessions uid).filter
          (fun s => keep.contains s.token)) (userSessions sessions uid) :=
        List.filter_sublist _
      have hndf : (((userSessions sessions uid).filter
          (fun s => keep.contains s.token)).map
            (fun s : Session => s.token)).Nodup :=
        (hsl.map (fun s : Session => s.token)).nodup hnd
      have hlen2 : ((userSessions sessions uid).filter
          (fun s => keep.contains s.token)).length ≤ 2 := by
        have := (List.subperm_of_subset hndf hsub).length_le
        rw [List.length_map] at this
        exact this.trans hkeeplen
      have hone : ([mkSession tok uid now].filter
          (fun s => s.userId == uid)).length ≤ 1 := by
        simp [mkSession]
      omega
    · rw [if_neg h3]
      unfold userSessions
      rw [List.filter_append, List.length_append]
      have h2 : (sessions.filter (fun s => s.userId == uid)).length ≤ 2 := by
        have := Nat.lt_of_not_le h3
        unfold userSessions at this
        omega
      have hone : ([mkSession tok uid now].filter
          (fun s => s.userId == uid)).length ≤ 1 := by
        simp [mkSession]
      omega
  · intro uid k₁ k₂ k₃ k₄ t₁ t₂ t₃ t₄ h12 h23 h34 hk12 hk13
    have b31 : (k₃ == k₁) = false :=
      beq_eq_false_iff_ne.mpr (fun e => hk13 e.symm)
    have b21 : (k₂ == k₁) = false :=
      beq_eq_false_iff_ne.mpr (fun e => hk12 e.symm)
    have e32 : ¬ (t₃ ≤ t₂) := Nat.not_le.mpr h23
    have e31 : ¬ (t₃ ≤ t₁) := Nat.not_le.mpr (h12.trans h23)
    have e21 : ¬ (t₂ ≤ t₁) := Nat.not_le.mpr h12
    have s1 : addSessionWithCleanup [] uid k₁ t₁ = [mkSession k₁ uid t₁] := by
      simp [addSessionWithCleanup, userSessions]
    have s2 : addSessionWithCleanup [mkSession k₁ uid t₁] uid k₂ t₂ =
        [mkSession k₁ uid t₁, mkSession k₂ uid t₂] := by
      simp [addSessionWithCleanup, userSessions, mkSession]
    have s3 : addSessionWithCleanup
        [mkSession k₁ uid t₁, mkSession k₂ uid t₂] uid k₃ t₃ =
        [mkSession k₁ uid t₁, mkSession k₂ uid t₂, mkSession k₃ uid t₃] := by
      simp [addSessionWithCleanup, userSessions, mkSession]
    rw [s1, s2, s3]
    unfold addSessionWithCleanup
    have hm : userSessions
        [mkSession k₁ uid t₁, mkSession k₂ uid t₂, mkSession k₃ uid t₃] uid =
        [mkSession k₁ uid t₁, mkSession k₂ uid t₂, mkSession k₃ uid t₃] := by
      simp [userSessions, mkSession]
    rw [hm]
    rw [if_pos (by simp)]
    have hsort : List.insertionSort (fun a b => b.createdAt ≤ a.createdAt)
        [mkSession k₁ uid t₁, mkSession k₂ uid t₂, mkSession k₃ uid t₃] =
        [mkSession k₃ uid t₃, mkSession k₂ uid t₂, mkSession k₁ uid t₁] := by
      simp only [List.insertionSort, List.orderedInsert, mkSession]
      rw [if_neg e32]
      simp only [List.orderedInsert]
      rw [if_neg e31, if_neg e21]
    rw [hsort]
    simp [mkSession, b21, b31, hk12, hk13, Ne.symm hk12, Ne.symm hk13]

/-- Where an unanchored scan succeeds, some suffix matches. -/
theorem scanAux_suffix {m : Option Char → List Char → Bool} :
    ∀ (prev : Option Char) (l : List Char), scanAux m prev l = true →
      ∃ p s, s <:+ l ∧ m p s = true := by
  intro prev l
  induction l generalizing prev with
  | nil => intro h; exact ⟨prev, [], List.suffix_rfl, h⟩
  | cons c rest ih =>
    intro h
    unfold scanAux at h
    rcases Bool.or_eq_true _ _ ▸ h with h1 | h2
    · exact ⟨prev, c :: rest, List.suffix_rfl, h1⟩
    · rcases ih (some c) h2 with ⟨p, s, hs, hm⟩
      exact ⟨p, s, hs.trans (List.suffix_cons c rest), hm⟩

/-- A successful literal match splits the input. -/
theorem dropLit_eq_append :
    ∀ (lit s rest : List Char), dropLit lit s = some rest →
      s = lit ++ rest := by
  intro lit
  induction lit with
  | nil =>
    intro s rest h
    simp [dropLit] at h
    simp [h]
  | cons x xs ih =>
    intro s rest h
    cases s with
    | nil => simp [dropLit] at h
    | cons y ys =>
      unfold dropLit at h
      by_cases hxy : (x == y) = true
      · rw [if_pos hxy] at h
        have hys := ih ys rest h
        have hx : x = y := beq_iff_eq.mp hxy
        subst hx
        simp [hys]
      · rw [if_neg hxy] at h
        exact absurd h (by simp)

/-- Where `\s+(noun)` succeeds, some noun is a prefix of a suffix. -/
theorem afterSpaceNoun_suffix {nouns : List (List Char)} :
    ∀ l, afterSpaceNoun nouns l = true →
      ∃ n ∈ nouns, ∃ s, s <:+ l ∧ n.isPrefixOf s = true := by
  intro l
  induction l with
  | nil => intro h; simp [afterSpaceNoun] at h
  | cons c rest ih =>
    intro h
    unfold afterSpaceNoun at h
    rcases Bool.and_eq_true _ _ ▸ h with ⟨_, hor⟩
    rcases Bool.or_eq_true _ _ ▸ hor with h1 | h2
    · rcases List.any_eq_true.mp h1 with ⟨n, hn, hsome⟩
      rcases Option.isSome_iff_exists.mp hsome with ⟨r, hr⟩
      refine ⟨n, hn, rest, List.suffix_cons c rest, ?_⟩
      rw [List.isPrefixOf_iff_prefix, dropLit_eq_append n rest r hr]
      exact List.prefix_append n r
    · rcases ih h2 with ⟨n, hn, s, hs, hp⟩
      exact ⟨n, hn, s, hs.trans (List.suffix_cons c rest), hp⟩

/-- A prefix of a suffix is a contained substring. -/
theorem containsSub_of_suffix (needle : List Char) :
    ∀ (hay s : List Char), s <:+ hay → needle.isPrefixOf s = true →
      containsSub needle hay = true := by
  intro hay
  induction hay with
  | nil =>
    intro s hs hp
    have hnil : s = [] := List.suffix_nil.mp hs
    subst hnil
    cases needle with
    | nil => rfl
    | cons a tl => simp [List.isPrefixOf] at hp
  | cons c t ih =>
    intro s hs hp
    rcases List.suffix_cons_iff.mp hs with h | h
    · subst h
      simp [containsSub, hp]
    · simp [containsSub, ih s h hp]

/-- A `\b(verb)\s+(noun)` match forces some noun to occur as a
substring of the scanned text. -/
theorem matchVerbSpaceNoun_noun {verbs nouns : List (List Char)}
    {prev : Option Char} {s : List Char}
    (h : matchVerbSpaceNoun verbs nouns prev s = true) :
    ∃ n ∈ nouns, ∃ t, t <:+ s ∧ n.isPrefixOf t = true := by
  unfold matchVerbSpaceNoun at h
  rcases Bool.and_eq_true _ _ ▸ h with ⟨_, hany⟩
  rcases List.any_eq_true.mp hany with ⟨v, hv, hmatch⟩
  cases hd : dropLit v s with
  | none => rw [hd] at hmatch; simp at hmatch
  | some rest =>
    rw [hd] at hmatch
    rcases afterSpaceNoun_suffix rest hmatch with ⟨n, hn, t, ht, hp⟩
    refine ⟨n, hn, t, ht.trans ?_, hp⟩
    rw [dropLit_eq_append v s rest hd]
    exact List.suffix_append v rest

/-- A `\b(alt)\b` match forces some alternative to occur as a prefix of
the scanned suffix. -/
theorem matchAltBoundary_noun {alts : List (List Char)}
    {prev : Option Char} {s : List Char}
    (h : matchAltBoundary alts prev s = true) :
    ∃ n ∈ alts, n.isPrefixOf s = true := by
  unfold matchAltBoundary at h
  rcases Bool.and_eq_true _ _ ▸ h with ⟨_, hany⟩
  rcases List.any_eq_true.mp hany with ⟨n, hn, hmatch⟩
  cases hd : dropLit n s with
  | none => rw [hd] at hmatch; simp at hmatch
  | some rest =>
    refine ⟨n, hn, ?_⟩
    rw [List.isPrefixOf_iff_prefix, dropLit_eq_append n s rest hd]
    exact List.prefix_append n rest

/-- Image pattern 1 implies a Russian image noun occurs as a substring. -/
theorem imagePattern1_noun {s : String} (h : imagePattern1 s = true) :
    ∃ n ∈ ruNouns, containsSub n s.data = true := by
  unfold imagePattern1 regexTest at h
  rcases scanAux_suffix none s.data h with ⟨p, t, ht, hm⟩
  rcases matchVerbSpaceNoun_noun hm with ⟨n, hn, t', ht', hp⟩
  exact ⟨n, hn, containsSub_of_suffix n s.data t' (ht'.trans ht) hp⟩

/-- Image pattern 3 implies an English image noun occurs as a substring. -/
theorem imagePattern3_noun {s : String} (h : imagePattern3 s = true) :
    ∃ n ∈ enNouns, containsSub n s.data = true := by
  unfold imagePattern3 regexTest at h
  rcases scanAux_suffix none s.data h with ⟨p, t, ht, hm⟩
  rcases matchVerbSpaceNoun_noun hm with ⟨n, hn, t', ht', hp⟩
  exact ⟨n, hn, containsSub_of_suffix n s.data t' (ht'.trans ht) hp⟩

/-- Image pattern 4 implies a standalone image noun occurs as a
substring. -/
theorem imagePattern4_noun {s : String} (h : imagePattern4 s = true) :
    ∃ n ∈ standaloneNouns, containsSub n s.data = true := by
  unfold imagePattern4 regexTest at h
  rcases scanAux_suffix none s.data h with ⟨p, t, ht, hm⟩
  rcases matchAltBoundary_noun hm with ⟨n, hn, hp⟩
  exact ⟨n, hn, containsSub_of_suffix n s.data t ht hp⟩

/-- Every noun of patterns 1, 3, 4 is (the character list of) an entry
of `imageNounList`. -/
theorem nouns_sub_imageNounList :
    (∀ n ∈ ruNouns, ∃ ns ∈ imageNounList, ns.data = n) ∧
    (∀ n ∈ enNouns, ∃ ns ∈ imageNounList, ns.data = n) ∧
    (∀ n ∈ standaloneNouns, ∃ ns ∈ imageNounList, ns.data = n) := by
  refine ⟨?_, ?_, ?_⟩ <;> decide

/-- C3 witness: both conjuncts at concrete stores. -/
theorem session_retention_witness :
    (userSessions (addSessionWithCleanup [] "u" "k" 5) "u").length ≤ 3 ∧
      addSessionWithCleanup (addSessionWithCleanup (addSessionWithCleanup
          (addSessionWithCleanup [] "u" "a" 1) "u" "b" 2) "u" "c" 3)
          "u" "d" 4 =
        [mkSession "b" "u" 2, mkSession "c" "u" 3, mkSession "d" "u" 4] :=
  ⟨session_retention.1 [] "u" "k" 5 (by decide),
    session_retention.2 "u" "a" "b" "c" "d" 1 2 3 4 (by decide) (by decide)
      (by decide) (by decide) (by decide)⟩

/-- C9 counterexample: "draw a cat" is classified `'image'` by the
standalone draw-verb pattern, yet it contains no explicit image noun
(neither the spec's picture/image/drawing nor any noun of the code's
patterns). -/
theorem detect_image_counterexample :
    detectRequestType "draw a cat" = "image" ∧
      imageNounList.all
        (fun n => !(containsSubstr n (jsToLower "draw a cat"))) = true := by
  exact ⟨by decide, by decide⟩

/-- C9 (amended): the classifier checks video phrases first, then the
image patterns, else `'text'`; a message classified `'image'` matched
one of the four image patterns with no video phrase present, and it
contains an explicit image noun **or** matched the standalone draw-verb
pattern `нарисуй|нарисуйте|draw` (which requires no noun). -/
theorem detect_request_type_priority :
    (∀ msg, videoKeywords.any
        (fun k => containsSubstr k (jsToLower msg)) = true →
      detectRequestType msg = "video") ∧
    (∀ msg, detectRequestType msg = "image" →
      videoKeywords.any (fun k => containsSubstr k (jsToLower msg)) = false ∧
        (imagePattern1 (jsToLower msg) || imagePattern2 (jsToLower msg) ||
          imagePattern3 (jsToLower msg) ||
          imagePattern4 (jsToLower msg)) = true) ∧
    (∀ msg, detectRequestType msg = "image" →
      imageNounList.any (fun n => containsSubstr n (jsToLower msg)) = true ∨
        imagePattern2 (jsToLower msg) = true) := by
  have hpart2 : ∀ msg, detectRequestType msg = "image" →
      videoKeywords.any (fun k => containsSubstr k (jsToLower msg)) = false ∧
        (imagePattern1 (jsToLower msg) || imagePattern2 (jsToLower msg) ||
          imagePattern3 (jsToLower msg) ||
          imagePattern4 (jsToLower msg)) = true := by
    intro msg h
    unfold detectRequestType at h
    by_cases hv : videoKeywords.any
        (fun k => containsSubstr k (jsToLower msg)) = true
    · rw [if_pos hv] at h
      exact absurd h (by decide)
    · have hv' : videoKeywords.any
          (fun k => containsSubstr k (jsToLower msg)) = false :=
        Bool.eq_false_iff.mpr hv
      rw [if_neg hv] at h
      by_cases hp : (imagePattern1 (jsToLower msg) ||
          imagePattern2 (jsToLower msg) || imagePattern3 (jsToLower msg) ||
          imagePattern4 (jsToLower msg)) = true
      · exact ⟨hv', hp⟩
      · rw [if_neg hp] at h
        exact absurd h (by decide)
  refine ⟨?_, hpart2, ?_⟩
  · intro msg hv
    unfold detectRequestType
    rw [if_pos hv]
  · intro msg h
    rcases hpart2 msg h with ⟨-, hp⟩
    rcases Bool.or_eq_true _ _ ▸ hp with hp' | h4
    · rcases Bool.or_eq_true _ _ ▸ hp' with hp'' | h3
      · rcases Bool.or_eq_true _ _ ▸ hp'' with h1 | h2
        · left
          rcases imagePattern1_noun h1 with ⟨n, hn, hc⟩
          rcases nouns_sub_imageNounList.1 n hn with ⟨ns, hns, hdata⟩
          refine List.any_eq_true.mpr ⟨ns, hns, ?_⟩
          rw [containsSubstr, hdata]
          exact hc
        · right
          exact h2
      · left
        rcases imagePattern3_noun h3 with ⟨n, hn, hc⟩
        rcases nouns_sub_imageNounList.2.1 n hn with ⟨ns, hns, hdata⟩
        refine List.any_eq_true.mpr ⟨ns, hns, ?_⟩
        rw [containsSubstr, hdata]
        exact hc
    · left
      rcases imagePattern4_noun h4 with ⟨n, hn, hc⟩
      rcases nouns_sub_imageNounList.2.2 n hn with ⟨ns, hns, hdata⟩
      refine List.any_eq_true.mpr ⟨ns, hns, ?_⟩
      rw [containsSubstr, hdata]
      exact hc

/-- C9 witness: the amended conjuncts at concrete messages. -/
theorem detect_request_type_priority_witness :
    detectRequestType "generate video of a cat" = "video" ∧
      (imageNounList.any (fun n =>
          containsSubstr n (jsToLower "generate image of a dog")) = true ∨
        imagePattern2 (jsToLower "generate image of a dog") = true) :=
  ⟨detect_request_type_priority.1 "generate video of a cat" (by decide),
    detect_request_type_priority.2.2 "generate image of a dog" (by decide)⟩

end AiBot
